import Mathlib

/-!
Verification of the IMF & World Bank economic data fetcher
(`fetch_economic_data.py`).

The script is shallowly embedded: JSON values become the inductive `JVal`,
Python's `float()` / `int()` conversions become explicit parsers over `Rat`
and `Int`, HTTP responses are passed to the adapters as explicit `Option JVal`
arguments (the network is external input), and pandas dataframes become lists
of `RawRow`.  Uncaught Python exceptions are modelled by `Except.error`;
exceptions that the script itself catches are folded into the normal return
value, exactly as the `try`/`except` blocks do.
-/

set_option maxHeartbeats 1000000

/-- JSON values, as produced by `response.json()`.  Numbers are modelled by
`Rat` (the script never relies on float rounding), `null` models Python
`None`. -/
inductive JVal where
  | null
  | bool (b : Bool)
  | num (q : Rat)
  | str (s : String)
  | arr (xs : List JVal)
  | obj (kvs : List (String × JVal))

/-- Python truthiness (`if not response: ...`): `None`, `False`, `0`, `""`,
`[]` and `{}` are falsy. -/
def pyTruthy : JVal → Bool
  | .null => false
  | .bool b => b
  | .num q => !(q == 0)
  | .str s => !(s == "")
  | .arr xs => !xs.isEmpty
  | .obj kvs => !kvs.isEmpty

/-- Test for `None`. -/
def JVal.isNull : JVal → Bool
  | .null => true
  | _ => false

/-- Test for the empty string (the `value != ""` check in `get_imf_data`). -/
def JVal.isEmptyStr : JVal → Bool
  | .str s => s == ""
  | _ => false

/-- First-match association-list lookup: Python dict subscripting (dict keys
are unique in Python, so first match is the match). -/
def lookupA {α : Type} (kvs : List (String × α)) (k : String) : Option α :=
  (kvs.find? fun e => e.1 == k).map (·.2)

/-- Python `dict.get(key, default)`. -/
def dictGet (kvs : List (String × JVal)) (k : String) (dflt : JVal) : JVal :=
  match lookupA kvs k with
  | some v => v
  | none => dflt

/-- Python `key in container` for a string key: key membership for dicts,
element membership for lists, substring test for strings, `TypeError`
(modelled by `Except.error`) otherwise. -/
def pyContains (v : JVal) (k : String) : Except Unit Bool :=
  match v with
  | .obj kvs => .ok (kvs.any fun e => e.1 == k)
  | .arr xs => .ok (xs.any fun x => match x with | .str s => s == k | _ => false)
  | .str s => .ok (decide (k.data <:+: s.data))
  | _ => .error ()

/-- Python `container[key]` for a string key: dict lookup (`KeyError` when
absent), `TypeError` for every other shape.  Both exception kinds land in the
same handler in the script, so they share the error value. -/
def pySubscript (v : JVal) (k : String) : Except Unit JVal :=
  match v with
  | .obj kvs =>
    match lookupA kvs k with
    | some x => .ok x
    | none => .error ()
  | _ => .error ()

/-- Numeric value of a nonempty all-digit character list. -/
def digitsVal (cs : List Char) : Nat :=
  cs.foldl (fun a c => a * 10 + (c.toNat - 48)) 0

/-- Parse a nonempty digit string. -/
def natOfDigits? (cs : List Char) : Option Nat :=
  if !cs.isEmpty && cs.all Char.isDigit then some (digitsVal cs) else none

/-- Strip surrounding whitespace, as Python's `int()`/`float()` do. -/
def stripWs (cs : List Char) : List Char :=
  ((cs.dropWhile Char.isWhitespace).reverse.dropWhile Char.isWhitespace).reverse

/-- Python `int(s)` on a string: optional sign, digits; `None` on failure
(`ValueError`). -/
def pyInt? (s : String) : Option Int :=
  match stripWs s.data with
  | '-' :: cs => (natOfDigits? cs).map fun n => -(n : Int)
  | '+' :: cs => (natOfDigits? cs).map fun n => (n : Int)
  | cs => (natOfDigits? cs).map fun n => (n : Int)

/-- Exponent suffix of a float literal, applied to a mantissa kept as an
integer numerator over a power-of-ten denominator (the arithmetic stays in
`Nat` so that every parse reduces definitionally; `mkRat` normalizes). -/
def applyExp (n d : Nat) : List Char → Option Rat
  | '-' :: ds => (natOfDigits? ds).map fun e => mkRat n (d * 10 ^ e)
  | '+' :: ds => (natOfDigits? ds).map fun e => mkRat (n * 10 ^ e) d
  | ds => (natOfDigits? ds).map fun e => mkRat (n * 10 ^ e) d

/-- Mantissa of a float literal: `digits`, `digits.digits`, `.digits` or
`digits.`; returns numerator, power-of-ten denominator and unconsumed rest. -/
def pyFloatMantissa? (cs : List Char) : Option (Nat × Nat × List Char) :=
  let ip := cs.takeWhile Char.isDigit
  let rest := cs.dropWhile Char.isDigit
  match rest with
  | '.' :: rest2 =>
    let fp := rest2.takeWhile Char.isDigit
    let rest3 := rest2.dropWhile Char.isDigit
    if ip.isEmpty && fp.isEmpty then none
    else some (digitsVal ip * 10 ^ fp.length + digitsVal fp, 10 ^ fp.length, rest3)
  | _ => if ip.isEmpty then none else some (digitsVal ip, 1, rest)

/-- Unsigned float literal body with optional exponent. -/
def pyFloatBody? (cs : List Char) : Option Rat :=
  match pyFloatMantissa? cs with
  | none => none
  | some (n, d, rest) =>
    match rest with
    | [] => some (mkRat n d)
    | 'e' :: ds => applyExp n d ds
    | 'E' :: ds => applyExp n d ds
    | _ => none

/-- Python `float(s)` on a string: `None` on failure (`ValueError`). -/
def pyFloat? (s : String) : Option Rat :=
  match stripWs s.data with
  | '-' :: cs => (pyFloatBody? cs).map fun q => Rat.neg q
  | '+' :: cs => pyFloatBody? cs
  | cs => pyFloatBody? cs

/-- Python `float(value)` on a JSON value: numbers and booleans convert,
strings are parsed (`ValueError` on failure), everything else is a
`TypeError`.  Both failures are handled identically by the script. -/
def pyFloatJ : JVal → Except Unit Rat
  | .num q => .ok q
  | .bool b => .ok (if b then 1 else 0)
  | .str s =>
    match pyFloat? s with
    | some q => .ok q
    | none => .error ()
  | _ => .error ()

/-- Python `int(value)` on a JSON value: floats truncate toward zero,
booleans convert, strings are parsed, everything else fails. -/
def pyIntJ : JVal → Except Unit Int
  | .num q => .ok (Int.tdiv q.num (q.den : Int))
  | .bool b => .ok (if b then 1 else 0)
  | .str s =>
    match pyInt? s with
    | some n => .ok n
    | none => .error ()
  | _ => .error ()

/-- Name and region of a country (`COUNTRIES` values). -/
structure CountryInfo where
  name : String
  region : String
deriving DecidableEq

/-- Display name and description of an indicator. -/
structure IndicatorInfo where
  name : String
  description : String
deriving DecidableEq

/-- Start of the configured year range. -/
def START_YEAR : Int := 2018

/-- End of the configured year range. -/
def END_YEAR : Int := 2024

/-- The fixed 25-country set, code ↦ name and region. -/
def COUNTRIES : List (String × CountryInfo) :=
  [("BRA", ⟨"Brazil", "Latin America"⟩),
   ("MEX", ⟨"Mexico", "Latin America"⟩),
   ("ARG", ⟨"Argentina", "Latin America"⟩),
   ("COL", ⟨"Colombia", "Latin America"⟩),
   ("CHL", ⟨"Chile", "Latin America"⟩),
   ("PER", ⟨"Peru", "Latin America"⟩),
   ("ZAF", ⟨"South Africa", "Africa"⟩),
   ("NGA", ⟨"Nigeria", "Africa"⟩),
   ("KEN", ⟨"Kenya", "Africa"⟩),
   ("EGY", ⟨"Egypt", "Africa"⟩),
   ("GHA", ⟨"Ghana", "Africa"⟩),
   ("ETH", ⟨"Ethiopia", "Africa"⟩),
   ("IND", ⟨"India", "Asia"⟩),
   ("IDN", ⟨"Indonesia", "Asia"⟩),
   ("PHL", ⟨"Philippines", "Asia"⟩),
   ("VNM", ⟨"Vietnam", "Asia"⟩),
   ("BGD", ⟨"Bangladesh", "Asia"⟩),
   ("THA", ⟨"Thailand", "Asia"⟩),
   ("MYS", ⟨"Malaysia", "Asia"⟩),
   ("POL", ⟨"Poland", "Europe"⟩),
   ("ROU", ⟨"Romania", "Europe"⟩),
   ("TUR", ⟨"Turkey", "Europe"⟩),
   ("UKR", ⟨"Ukraine", "Europe"⟩),
   ("JOR", ⟨"Jordan", "Middle East"⟩),
   ("LBN", ⟨"Lebanon", "Middle East"⟩)]

/-- IMF DataMapper indicator codes. -/
def IMF_INDICATORS : List (String × IndicatorInfo) :=
  [("NGDP_RPCH", ⟨"GDP Growth Rate (Annual %)", "Real GDP growth rate, annual percentage change"⟩),
   ("PCPIPCH", ⟨"Inflation Rate (CPI)", "Consumer Price Index, annual percentage change"⟩),
   ("GGXWDG_NGDP", ⟨"Government Debt (% of GDP)", "General government gross debt as percentage of GDP"⟩),
   ("GGXCNL_NGDP", ⟨"Fiscal Balance (% of GDP)", "General government net lending/borrowing as percentage of GDP"⟩),
   ("GGR_NGDP", ⟨"Government Revenue (% of GDP)", "General government revenue as percentage of GDP"⟩),
   ("GGX_NGDP", ⟨"Government Expenditure (% of GDP)", "General government total expenditure as percentage of GDP"⟩),
   ("BCA_NGDPD", ⟨"Current Account Balance (% of GDP)", "Current account balance as percentage of GDP"⟩),
   ("LUR", ⟨"Unemployment Rate", "Unemployment rate, percent"⟩)]

/-- World Bank indicator codes. -/
def WB_INDICATORS : List (String × IndicatorInfo) :=
  [("SE.XPD.TOTL.GD.ZS", ⟨"Education Expenditure (% of GDP)", "Government expenditure on education, total (% of GDP)"⟩),
   ("IS.RRS.TOTL.KM", ⟨"Railway Infrastructure", "Railways, total (route-km)"⟩),
   ("SP.POP.TOTL", ⟨"Population", "Population, total"⟩),
   ("NY.GNP.PCAP.CD", ⟨"GNI per Capita", "GNI per capita, Atlas method (current US$)"⟩),
   ("IE.PPI.ENGY.CD", ⟨"Infrastructure Investment (Energy)", "Investment in energy with private participation (current US$)"⟩)]

/-- One data point as appended by either adapter: the dict
`{"Country_Code": ..., ..., "Source": ...}` with its run-time field types. -/
structure ObservationRecord where
  country_code : String
  country : String
  region : String
  year : Int
  indicator_name : String
  indicator_code : String
  value : Option Rat
  source : String
deriving DecidableEq

/-- Outcome of one HTTP attempt inside `make_request`: parsed JSON, or a
`requests.exceptions.RequestException` (transport/status failure). -/
inductive AttemptResult where
  | success (json : JVal)
  | failure

/-- The retry loop of `make_request`, at attempt `i` with `rem` attempts
remaining (including the current one).  On the final failed attempt the
function returns `None`. -/
def make_requestFrom (att : Nat → AttemptResult) : Nat → Nat → Option JVal
  | _, 0 => none
  | i, rem + 1 =>
    match att i with
    | .success j => some j
    | .failure => if rem = 0 then none else make_requestFrom att (i + 1) rem

/-- `make_request`: try up to `max_retries` attempts, returning the first
successful JSON body, or `None` once every attempt has failed.  The
per-attempt outcomes are supplied by the oracle `att`. -/
def make_request (att : Nat → AttemptResult) (max_retries : Nat := 3) : Option JVal :=
  make_requestFrom att 0 max_retries

/-- Result of the inner `try` body of `get_imf_data` for one `(year, value)`
item: no record (`continue`d or filtered), an appended record, or a
`KeyError` from `COUNTRIES[country_code]` (caught by the outer handler, which
stops the whole parse). -/
inductive EntryRes where
  | skip
  | emit (r : ObservationRecord)
  | keyError

/-- One iteration of `for year_str, value in country_data.items()` in
`get_imf_data`: parse the year (`continue` on `ValueError`), keep only
in-range years with non-`None` values, convert the value with `float`
(`continue` on failure) — except that an empty-string value is stored as
`None` rather than converted. -/
def imfEntry (ic : String) (ind : IndicatorInfo) (cc : String) (e : String × JVal) : EntryRes :=
  match pyInt? e.1 with
  | none => .skip
  | some year =>
    if START_YEAR ≤ year ∧ year ≤ END_YEAR ∧ e.2.isNull = false then
      match lookupA COUNTRIES cc with
      | none => .keyError
      | some ci =>
        if e.2.isEmptyStr then
          .emit ⟨cc, ci.name, ci.region, year, ind.name, ic, none, "IMF"⟩
        else
          match pyFloatJ e.2 with
          | .ok q => .emit ⟨cc, ci.name, ci.region, year, ind.name, ic, some q, "IMF"⟩
          | .error _ => .skip
    else .skip

/-- The year loop of `get_imf_data` over one country's `(year, value)` items.
Returns the appended records and whether a `KeyError` aborted the loop
(records appended before the abort are kept, as `data_points` is mutated in
place). -/
def imfYearLoop (ic : String) (ind : IndicatorInfo) (cc : String) :
    List (String × JVal) → List ObservationRecord × Bool
  | [] => ([], false)
  | e :: rest =>
    match imfEntry ic ind cc e with
    | .keyError => ([], true)
    | .skip => imfYearLoop ic ind cc rest
    | .emit r =>
      let p := imfYearLoop ic ind cc rest
      (r :: p.1, p.2)

/-- Outcome of the country loop of `get_imf_data`: completed normally, an
exception was caught by the outer `except (KeyError, TypeError)` handler
(which returns the records accumulated so far), or an uncaught
`AttributeError` (`country_data.items()` on a non-dict) crashed the call. -/
inductive ImfOutcome where
  | done (pts : List ObservationRecord)
  | caught (pts : List ObservationRecord)
  | crash

/-- The `for country_code in country_codes` loop of `get_imf_data`. -/
def imfCountryLoop (ic : String) (ind : IndicatorInfo) (indData : JVal) :
    List String → List ObservationRecord → ImfOutcome
  | [], acc => .done acc
  | cc :: rest, acc =>
    match pyContains indData cc with
    | .error _ => .caught acc
    | .ok false => imfCountryLoop ic ind indData rest acc
    | .ok true =>
      match pySubscript indData cc with
      | .error _ => .caught acc
      | .ok (JVal.obj ym) =>
        let p := imfYearLoop ic ind cc ym
        if p.2 then .caught (acc ++ p.1) else imfCountryLoop ic ind indData rest (acc ++ p.1)
      | .ok _ => .crash

/-- `get_imf_data(indicator_code, country_codes)` with the HTTP response
passed explicitly.  `Except.error` models an uncaught exception: the
`KeyError` from `IMF_INDICATORS[indicator_code]` in the progress print
(before any `try`), or the `AttributeError` from `.items()` on a non-dict.
All `KeyError`/`TypeError` inside the parse are caught by the script and
yield the records accumulated so far. -/
def get_imf_data (ic : String) (ccs : List String) (resp : Option JVal) :
    Except Unit (List ObservationRecord) :=
  match lookupA IMF_INDICATORS ic with
  | none => .error ()
  | some ind =>
    match resp with
    | none => .ok []
    | some r =>
      if pyTruthy r = false then .ok []
      else
        match pyContains r "values" with
        | .error _ => .ok []
        | .ok false => .ok []
        | .ok true =>
          match pySubscript r "values" with
          | .error _ => .ok []
          | .ok vals =>
            match pyContains vals ic with
            | .error _ => .ok []
            | .ok false => .ok []
            | .ok true =>
              match pySubscript vals ic with
              | .error _ => .ok []
              | .ok indData =>
                match imfCountryLoop ic ind indData ccs [] with
                | .done pts => .ok pts
                | .caught pts => .ok pts
                | .crash => .error ()

/-- Result of one iteration of the record loop in `get_world_bank_data`:
skipped (filtered, or a caught `KeyError`/`TypeError`), an appended record,
or an uncaught `AttributeError` (`record.get` on a non-dict). -/
inductive WbRes where
  | skip
  | emit (r : ObservationRecord)
  | crash

/-- One iteration of `for record in data` in `get_world_bank_data`: read
`countryiso3code` (default `""`), filter to configured countries (an
unhashable code raises `TypeError`, caught), require a truthy date and a
non-`None` value, parse the year (`continue` on failure), keep in-range
years, convert the value with `float` (`continue` on failure). -/
def wbStep (ind : IndicatorInfo) (ic : String) (record : JVal) : WbRes :=
  match record with
  | JVal.obj kvs =>
    match dictGet kvs "countryiso3code" (JVal.str "") with
    | JVal.arr _ => .skip
    | JVal.obj _ => .skip
    | JVal.str cc =>
      match lookupA COUNTRIES cc with
      | none => .skip
      | some ci =>
        let yv := dictGet kvs "date" (JVal.str "")
        let vv := dictGet kvs "value" JVal.null
        if pyTruthy yv = true ∧ vv.isNull = false then
          match pyIntJ yv with
          | .error _ => .skip
          | .ok y =>
            if START_YEAR ≤ y ∧ y ≤ END_YEAR then
              match pyFloatJ vv with
              | .ok q => .emit ⟨cc, ci.name, ci.region, y, ind.name, ic, some q, "World Bank"⟩
              | .error _ => .skip
            else .skip
        else .skip
    | _ => .skip
  | _ => .crash

/-- The record loop of `get_world_bank_data`. -/
def wbLoop (ind : IndicatorInfo) (ic : String) :
    List JVal → List ObservationRecord → Except Unit (List ObservationRecord)
  | [], acc => .ok acc
  | rec :: rest, acc =>
    match wbStep ind ic rec with
    | .skip => wbLoop ind ic rest acc
    | .emit r => wbLoop ind ic rest (acc ++ [r])
    | .crash => .error ()

/-- Iterate `for record in data` over the second element of the response
array.  A non-iterable raises uncaught `TypeError`; iterating a dict or a
string yields strings, whose `.get` raises uncaught `AttributeError` — both
crash; empty iterables run zero iterations. -/
def wbIter (ind : IndicatorInfo) (ic : String) : JVal → Except Unit (List ObservationRecord)
  | JVal.arr records => wbLoop ind ic records []
  | JVal.obj [] => .ok []
  | JVal.str "" => .ok []
  | _ => .error ()

/-- `get_world_bank_data(indicator_code, country_codes)` with the HTTP
response passed explicitly.  `Except.error` models an uncaught exception (the
progress-print `KeyError` for an unknown indicator, or a crash while
iterating malformed data). -/
def get_world_bank_data (ic : String) (ccs : List String) (resp : Option JVal) :
    Except Unit (List ObservationRecord) :=
  match lookupA WB_INDICATORS ic with
  | none => .error ()
  | some ind =>
    match resp with
    | none => .ok []
    | some r =>
      if pyTruthy r = false then .ok []
      else
        match r with
        | JVal.arr (_ :: d :: _) => wbIter ind ic d
        | _ => .ok []

deriving instance DecidableEq for Except

/-- A raw dataframe row, as built by `pd.DataFrame(all_data)`: one cell per
column, each cell an arbitrary Python value (`JVal.null` models `None`/NaN).
Field names follow the dataframe column names. -/
structure RawRow where
  Country_Code : JVal
  Country : JVal
  Region : JVal
  Year : JVal
  Indicator_Name : JVal
  Indicator_Code : JVal
  Value : JVal
  Source : JVal

/-- The `dropna(subset=["Country", "Year", "Indicator_Name"])` predicate:
keep a row iff none of the three critical cells is missing. -/
def keepRow (r : RawRow) : Bool :=
  !r.Country.isNull && !r.Year.isNull && !r.Indicator_Name.isNull

/-- `pd.to_numeric(cell, errors="coerce")`: numbers and booleans convert,
numeric strings parse, everything else (including `None`/NaN) coerces to
NaN (`none`). -/
def toNumericCell : JVal → Option Rat
  | .num q => some q
  | .bool b => some (if b then 1 else 0)
  | .str s => pyFloat? s
  | _ => none

/-- Write a coerced numeric column value back into a cell (NaN ↦ missing). -/
def cellOfNum : Option Rat → JVal
  | none => JVal.null
  | some q => JVal.num q

/-- The type-coercion step of `clean_data`: `Year` and `Value` are passed
through `pd.to_numeric(..., errors="coerce")`. -/
def coerceRow (r : RawRow) : RawRow :=
  { r with Year := cellOfNum (toNumericCell r.Year), Value := cellOfNum (toNumericCell r.Value) }

/-- The `.astype("Int64")` cast on the coerced `Year` column succeeds on NA
and on integral numerics, and raises on a non-integral numeric year. -/
def yearCastOk (r : RawRow) : Bool :=
  match toNumericCell r.Year with
  | none => true
  | some q => q.den == 1

/-- A cell usable in the pandas sort key: `sort_values` compares cell values
with `<`, which raises on mixed/non-string cells; the model requires the two
string-typed key columns to hold strings. -/
def sortKeyOk (r : RawRow) : Bool :=
  (match r.Country with | JVal.str _ => true | _ => false) &&
  (match r.Indicator_Name with | JVal.str _ => true | _ => false)

/-- String content of a (string) cell. -/
def cellStr : JVal → String
  | .str s => s
  | _ => ""

/-- Sort key for the `Year` column: a numeric cell sorts by value and a
missing (`NA`) year sorts last (`na_position="last"`), modelled as `none`
being greatest. -/
def yearKey : JVal → Option Rat
  | .num q => some q
  | _ => none

/-- Strict order on year keys with `none` (NA) greatest. -/
def yearLt : Option Rat → Option Rat → Prop
  | some a, some b => a < b
  | some _, none => True
  | none, _ => False

instance : ∀ a b, Decidable (yearLt a b) := fun a b =>
  match a, b with
  | some a, some b => inferInstanceAs (Decidable (a < b))
  | some _, none => inferInstanceAs (Decidable True)
  | none, some _ => inferInstanceAs (Decidable False)
  | none, none => inferInstanceAs (Decidable False)

/-- Code-point lexicographic comparison of character lists: how Python (and
hence pandas on object columns) orders strings. -/
def charListLt : List Char → List Char → Bool
  | _, [] => false
  | [], _ :: _ => true
  | a :: as, b :: bs => decide (a < b) || (a == b && charListLt as bs)

/-- Strict code-point lexicographic order on strings. -/
def strLt (a b : String) : Prop := charListLt a.data b.data = true

/-- Reflexive code-point lexicographic order on strings. -/
def strLe (a b : String) : Prop := charListLt b.data a.data = false

instance : ∀ a b, Decidable (strLt a b) := fun _ _ =>
  inferInstanceAs (Decidable (_ = true))

instance : ∀ a b, Decidable (strLe a b) := fun _ _ =>
  inferInstanceAs (Decidable (_ = false))

/-- The lexicographic `sort_values(["Country", "Year", "Indicator_Name"])`
order on rows. -/
def rowLe (a b : RawRow) : Prop :=
  strLt (cellStr a.Country) (cellStr b.Country) ∨
  (cellStr a.Country = cellStr b.Country ∧
    (yearLt (yearKey a.Year) (yearKey b.Year) ∨
      (yearKey a.Year = yearKey b.Year ∧
        strLe (cellStr a.Indicator_Name) (cellStr b.Indicator_Name))))

instance : DecidableRel rowLe := fun a b =>
  inferInstanceAs (Decidable (_ ∨ _))

/-- `clean_data(df)`: drop rows with missing critical cells, coerce `Year`
(`to_numeric` then `astype("Int64")`, which raises on non-integral years) and
`Value` (`to_numeric`, failures become NaN, the row is kept), then sort by
(Country, Year, Indicator_Name) and reindex.  `Except.error` models an
uncaught pandas exception. -/
def clean_data (df : List RawRow) : Except Unit (List RawRow) :=
  let kept := df.filter keepRow
  if kept.all yearCastOk then
    let coerced := kept.map coerceRow
    if coerced.all sortKeyOk then .ok (List.insertionSort rowLe coerced)
    else .error ()
  else .error ()

/-- An `ObservationRecord` as a dataframe row (how `pd.DataFrame(all_data)`
ingests the adapters' dicts). -/
def ObservationRecord.toRaw (r : ObservationRecord) : RawRow :=
  { Country_Code := JVal.str r.country_code
    Country := JVal.str r.country
    Region := JVal.str r.region
    Year := JVal.num (mkRat r.year 1)
    Indicator_Name := JVal.str r.indicator_name
    Indicator_Code := JVal.str r.indicator_code
    Value := match r.value with | none => JVal.null | some q => JVal.num q
    Source := JVal.str r.source }

/-- Concrete fund-API response from the spec:
`{"values":{"LUR":{"BRA":{"2019": 11.9, "2025": 8.0}}}}`. -/
def respC1 : JVal :=
  JVal.obj [("values", JVal.obj [("LUR", JVal.obj [("BRA",
    JVal.obj [("2019", JVal.num (mkRat 119 10)), ("2025", JVal.num (mkRat 8 1))])])])]

/-- A fund-API response whose single raw value is the empty string. -/
def respEmptyStr : JVal :=
  JVal.obj [("values", JVal.obj [("LUR", JVal.obj [("BRA",
    JVal.obj [("2019", JVal.str "")])])])]

/-- Concrete development-bank response from the spec:
`[meta, [{"countryiso3code":"BRA","date":"2020","value":"5.2"}]]`. -/
def respC4 : JVal :=
  JVal.arr [JVal.obj [], JVal.arr [JVal.obj
    [("countryiso3code", JVal.str "BRA"), ("date", JVal.str "2020"), ("value", JVal.str "5.2")]]]

/-- The records `get_imf_data` collects for one requested country from the
parsed country map (empty when the country is absent). -/
def countryRecs (ic : String) (ind : IndicatorInfo) (cmap : List (String × JVal)) (cc : String) :
    List ObservationRecord :=
  match lookupA cmap cc with
  | some (JVal.obj ym) => (imfYearLoop ic ind cc ym).1
  | _ => []

/-- A raw row whose `Year` cell is a non-numeric string: it survives the
critical-column drop but its year coerces to NA. -/
def rowBadYear : RawRow :=
  ⟨JVal.str "BRA", JVal.str "Brazil", JVal.str "Latin America", JVal.str "bad-year",
    JVal.str "Unemployment Rate", JVal.str "LUR", JVal.num (mkRat 119 10), JVal.str "IMF"⟩

/-- `rowBadYear` after one cleaning pass: the year has become NA. -/
def rowBadYearCleaned : RawRow :=
  ⟨JVal.str "BRA", JVal.str "Brazil", JVal.str "Latin America", JVal.null,
    JVal.str "Unemployment Rate", JVal.str "LUR", JVal.num (mkRat 119 10), JVal.str "IMF"⟩

/-- Sample well-formed raw row (as produced by the fund adapter). -/
def sampleRowMex : RawRow :=
  ⟨JVal.str "MEX", JVal.str "Mexico", JVal.str "Latin America", JVal.num (mkRat 2019 1),
    JVal.str "Unemployment Rate", JVal.str "LUR", JVal.num (mkRat 119 10), JVal.str "IMF"⟩

/-- Sample raw row whose `Value` cell is a non-numeric string and whose
`Year` cell is a numeric string. -/
def sampleRowBra : RawRow :=
  ⟨JVal.str "BRA", JVal.str "Brazil", JVal.str "Latin America", JVal.str "2020",
    JVal.str "Population", JVal.str "SP.POP.TOTL", JVal.str "zz", JVal.str "World Bank"⟩

/-- `sampleRowBra` after cleaning: year parsed, value nulled. -/
def sampleRowBraCleaned : RawRow :=
  ⟨JVal.str "BRA", JVal.str "Brazil", JVal.str "Latin America", JVal.num (mkRat 2020 1),
    JVal.str "Population", JVal.str "SP.POP.TOTL", JVal.null, JVal.str "World Bank"⟩

theorem yearLt_trans : ∀ a b c, yearLt a b → yearLt b c → yearLt a c := by
  intro a b c h1 h2
  match a, b, c with
  | some a, some b, some c => exact lt_trans h1 h2
  | some _, some _, none => trivial
  | some _, none, _ => exact h2.elim
  | none, _, _ => exact h1.elim

theorem yearLt_trichotomy : ∀ a b, yearLt a b ∨ a = b ∨ yearLt b a := by
  intro a b
  match a, b with
  | some a, some b =>
    rcases lt_trichotomy a b with h | h | h
    · exact Or.inl h
    · exact Or.inr (Or.inl (by rw [h]))
    · exact Or.inr (Or.inr h)
  | some _, none => exact Or.inl trivial
  | none, some _ => exact Or.inr (Or.inr trivial)
  | none, none => exact Or.inr (Or.inl rfl)

theorem charListLt_trans :
    ∀ a b c, charListLt a b = true → charListLt b c = true → charListLt a c = true := by
  intro a
  induction a with
  | nil =>
    intro b c h1 h2
    match b, c with
    | _, [] => simp [charListLt] at h2
    | b, _ :: _ => rfl
  | cons x xs ih =>
    intro b c h1 h2
    match b, c with
    | [], _ => simp [charListLt] at h1
    | _ :: _, [] => simp [charListLt] at h2
    | y :: ys, z :: zs =>
      simp only [charListLt, Bool.or_eq_true, Bool.and_eq_true, decide_eq_true_eq,
        beq_iff_eq] at h1 h2 ⊢
      rcases h1 with h1 | ⟨rfl, h1⟩
      · rcases h2 with h2 | ⟨rfl, h2⟩
        · exact Or.inl (lt_trans h1 h2)
        · exact Or.inl h1
      · rcases h2 with h2 | ⟨rfl, h2⟩
        · exact Or.inl h2
        · exact Or.inr ⟨rfl, ih _ _ h1 h2⟩

theorem charListLt_connex :
    ∀ a b, charListLt a b = true ∨ a = b ∨ charListLt b a = true := by
  intro a
  induction a with
  | nil =>
    intro b
    match b with
    | [] => exact Or.inr (Or.inl rfl)
    | _ :: _ => exact Or.inl rfl
  | cons x xs ih =>
    intro b
    match b with
    | [] => exact Or.inr (Or.inr rfl)
    | y :: ys =>
      simp only [charListLt, Bool.or_eq_true, Bool.and_eq_true, decide_eq_true_eq,
        beq_iff_eq, List.cons.injEq]
      rcases lt_trichotomy x y with h | rfl | h
      · exact Or.inl (Or.inl h)
      · rcases ih ys with h2 | rfl | h2
        · exact Or.inl (Or.inr ⟨rfl, h2⟩)
        · exact Or.inr (Or.inl ⟨rfl, rfl⟩)
        · exact Or.inr (Or.inr (Or.inr ⟨rfl, h2⟩))
      · exact Or.inr (Or.inr (Or.inl h))

theorem charListLt_irrefl : ∀ a, charListLt a a = false := by
  intro a
  induction a with
  | nil => rfl
  | cons x xs ih => simp [charListLt, ih, lt_irrefl]

theorem charListLt_asymm :
    ∀ a b, charListLt a b = true → charListLt b a = true → False := by
  intro a b h1 h2
  have := charListLt_trans a b a h1 h2
  rw [charListLt_irrefl] at this
  exact Bool.noConfusion this

theorem strLt_or_eq_or_gt : ∀ a b : String, strLt a b ∨ a = b ∨ strLt b a := by
  intro a b
  rcases charListLt_connex a.data b.data with h | h | h
  · exact Or.inl h
  · exact Or.inr (Or.inl (String.ext h))
  · exact Or.inr (Or.inr h)

theorem strLt_strLe : ∀ a b : String, strLt a b → strLe a b := by
  intro a b h
  rcases hba : charListLt b.data a.data with _ | _
  · exact hba
  · exact absurd (charListLt_asymm _ _ h hba) not_false

theorem strLe_refl : ∀ a : String, strLe a a := fun a => charListLt_irrefl a.data

theorem strLe_total : ∀ a b : String, strLe a b ∨ strLe b a := by
  intro a b
  rcases strLt_or_eq_or_gt a b with h | rfl | h
  · exact Or.inl (strLt_strLe _ _ h)
  · exact Or.inl (strLe_refl a)
  · exact Or.inr (strLt_strLe _ _ h)

theorem strLe_trans : ∀ a b c : String, strLe a b → strLe b c → strLe a c := by
  intro a b c h1 h2
  rcases hca : charListLt c.data a.data with _ | _
  · exact hca
  · exfalso
    unfold strLe at h1 h2
    rcases charListLt_connex a.data b.data with hab | hab | hab
    · rw [charListLt_trans _ _ _ hca hab] at h2
      exact Bool.noConfusion h2
    · rw [← hab, hca] at h2
      exact Bool.noConfusion h2
    · rw [hab] at h1
      exact Bool.noConfusion h1

theorem strLt_trans_le : ∀ a b c : String, strLt a b → strLe b c → strLt a c := by
  intro a b c h1 h2
  rcases charListLt_connex b.data c.data with h | h | h
  · exact charListLt_trans _ _ _ h1 h
  · show charListLt a.data c.data = true
    rw [← h]
    exact h1
  · unfold strLe at h2
    rw [h2] at h
    exact Bool.noConfusion h

theorem strLe_trans_lt : ∀ a b c : String, strLe a b → strLt b c → strLt a c := by
  intro a b c h1 h2
  rcases charListLt_connex a.data b.data with h | h | h
  · exact charListLt_trans _ _ _ h h2
  · show charListLt a.data c.data = true
    rw [h]
    exact h2
  · unfold strLe at h1
    rw [h1] at h
    exact Bool.noConfusion h

theorem rowLe_total : ∀ a b, rowLe a b ∨ rowLe b a := by
  intro a b
  rcases strLt_or_eq_or_gt (cellStr a.Country) (cellStr b.Country) with h | h | h
  · exact Or.inl (Or.inl h)
  · rcases yearLt_trichotomy (yearKey a.Year) (yearKey b.Year) with h2 | h2 | h2
    · exact Or.inl (Or.inr ⟨h, Or.inl h2⟩)
    · rcases strLe_total (cellStr a.Indicator_Name) (cellStr b.Indicator_Name) with h3 | h3
      · exact Or.inl (Or.inr ⟨h, Or.inr ⟨h2, h3⟩⟩)
      · exact Or.inr (Or.inr ⟨h.symm, Or.inr ⟨h2.symm, h3⟩⟩)
    · exact Or.inr (Or.inr ⟨h.symm, Or.inl h2⟩)
  · exact Or.inr (Or.inl h)

theorem rowLe_trans : ∀ a b c, rowLe a b → rowLe b c → rowLe a c := by
  intro a b c hab hbc
  rcases hab with h1 | ⟨e1, h1⟩
  · rcases hbc with h2 | ⟨e2, h2⟩
    · exact Or.inl (charListLt_trans _ _ _ h1 h2)
    · exact Or.inl (e2 ▸ h1)
  · rcases hbc with h2 | ⟨e2, h2⟩
    · exact Or.inl (e1 ▸ h2)
    · refine Or.inr ⟨e1.trans e2, ?_⟩
      rcases h1 with y1 | ⟨ey1, i1⟩
      · rcases h2 with y2 | ⟨ey2, i2⟩
        · exact Or.inl (yearLt_trans _ _ _ y1 y2)
        · exact Or.inl (ey2 ▸ y1)
      · rcases h2 with y2 | ⟨ey2, i2⟩
        · exact Or.inl (ey1 ▸ y2)
        · exact Or.inr ⟨ey1.trans ey2, strLe_trans _ _ _ i1 i2⟩

instance : IsTotal RawRow rowLe := ⟨rowLe_total⟩

instance : IsTrans RawRow rowLe := ⟨fun a b c => rowLe_trans a b c⟩

theorem isNull_iff {v : JVal} : v.isNull = true ↔ v = JVal.null := by
  cases v <;> simp [JVal.isNull]

theorem isEmptyStr_iff {v : JVal} : v.isEmptyStr = true ↔ v = JVal.str "" := by
  cases v <;> simp [JVal.isEmptyStr]

theorem imfEntry_emit_inv {ic : String} {ind : IndicatorInfo} {cc : String}
    {e : String × JVal} {r : ObservationRecord}
    (h : imfEntry ic ind cc e = .emit r) :
    ∃ ci, lookupA COUNTRIES cc = some ci ∧
      pyInt? e.1 = some r.year ∧
      START_YEAR ≤ r.year ∧ r.year ≤ END_YEAR ∧
      r.country_code = cc ∧ r.country = ci.name ∧ r.region = ci.region ∧
      r.indicator_name = ind.name ∧ r.indicator_code = ic ∧ r.source = "IMF" ∧
      ((e.2 = JVal.str "" ∧ r.value = none) ∨
        (∃ q, pyFloatJ e.2 = .ok q ∧ r.value = some q)) := by
  cases hy : pyInt? e.1 with
  | none =>
    simp only [imfEntry, hy] at h
    exact EntryRes.noConfusion h
  | some y =>
    simp only [imfEntry, hy] at h
    split at h
    next hcond =>
      split at h
      next hl => exact EntryRes.noConfusion h
      next ci hl =>
        split at h
        next hes =>
          injection h with h
          subst h
          exact ⟨ci, hl, rfl, hcond.1, hcond.2.1, rfl, rfl, rfl, rfl, rfl, rfl,
            Or.inl ⟨isEmptyStr_iff.mp hes, rfl⟩⟩
        next hes =>
          split at h
          next q hf =>
            injection h with h
            subst h
            exact ⟨ci, hl, rfl, hcond.1, hcond.2.1, rfl, rfl, rfl, rfl, rfl, rfl,
              Or.inr ⟨q, hf, rfl⟩⟩
          next u hf => exact EntryRes.noConfusion h
    next => exact EntryRes.noConfusion h

theorem imfEntry_keyError_inv {ic : String} {ind : IndicatorInfo} {cc : String}
    {e : String × JVal} (h : imfEntry ic ind cc e = .keyError) :
    lookupA COUNTRIES cc = none := by
  cases hy : pyInt? e.1 with
  | none =>
    simp only [imfEntry, hy] at h
    exact EntryRes.noConfusion h
  | some y =>
    simp only [imfEntry, hy] at h
    split at h
    next hcond =>
      split at h
      next hl => exact hl
      next ci hl =>
        split at h
        next hes => exact EntryRes.noConfusion h
        next hes =>
          split at h
          next q hf => exact EntryRes.noConfusion h
          next u hf => exact EntryRes.noConfusion h
    next => exact EntryRes.noConfusion h

theorem imfEntry_emit_of_num {ic : String} {ind : IndicatorInfo} {cc : String}
    {e : String × JVal} {y : Int} {q : Rat} {ci : CountryInfo}
    (hy : pyInt? e.1 = some y) (hv : e.2 = JVal.num q)
    (h1 : START_YEAR ≤ y) (h2 : y ≤ END_YEAR)
    (hci : lookupA COUNTRIES cc = some ci) :
    imfEntry ic ind cc e = .emit ⟨cc, ci.name, ci.region, y, ind.name, ic, some q, "IMF"⟩ := by
  simp only [imfEntry, hy, hv, hci, JVal.isNull, JVal.isEmptyStr, pyFloatJ]
  simp [h1, h2]

theorem imfEntry_emit_of_emptystr {ic : String} {ind : IndicatorInfo} {cc : String}
    {e : String × JVal} {y : Int} {ci : CountryInfo}
    (hy : pyInt? e.1 = some y) (hv : e.2 = JVal.str "")
    (h1 : START_YEAR ≤ y) (h2 : y ≤ END_YEAR)
    (hci : lookupA COUNTRIES cc = some ci) :
    imfEntry ic ind cc e = .emit ⟨cc, ci.name, ci.region, y, ind.name, ic, none, "IMF"⟩ := by
  simp only [imfEntry, hy, hv, hci, JVal.isNull, JVal.isEmptyStr]
  simp [h1, h2]

theorem imfEntry_no_emit_of_failfloat {ic : String} {ind : IndicatorInfo} {cc : String}
    {e : String × JVal}
    (hfail : ∀ q, pyFloatJ e.2 ≠ .ok q) (hne : e.2 ≠ JVal.str "") :
    ∀ r, imfEntry ic ind cc e ≠ .emit r := by
  intro r h
  cases hy : pyInt? e.1 with
  | none =>
    simp only [imfEntry, hy] at h
    exact EntryRes.noConfusion h
  | some y =>
    simp only [imfEntry, hy] at h
    split at h
    next hcond =>
      split at h
      next hl => exact EntryRes.noConfusion h
      next ci hl =>
        split at h
        next hes => exact hne (isEmptyStr_iff.mp hes)
        next hes =>
          split at h
          next q hf => exact hfail q hf
          next u hf => exact EntryRes.noConfusion h
    next => exact EntryRes.noConfusion h

theorem imfYearLoop_mem {ic : String} {ind : IndicatorInfo} {cc : String}
    {ym : List (String × JVal)} {r : ObservationRecord}
    (hr : r ∈ (imfYearLoop ic ind cc ym).1) :
    ∃ e ∈ ym, imfEntry ic ind cc e = .emit r := by
  induction ym with
  | nil => simp [imfYearLoop] at hr
  | cons e rest ih =>
    cases hE : imfEntry ic ind cc e with
    | keyError =>
      simp only [imfYearLoop, hE] at hr
      simp at hr
    | skip =>
      simp only [imfYearLoop, hE] at hr
      obtain ⟨e2, he2, hemit⟩ := ih hr
      exact ⟨e2, List.mem_cons_of_mem _ he2, hemit⟩
    | emit r2 =>
      simp only [imfYearLoop, hE] at hr
      rcases List.mem_cons.mp hr with rfl | hr2
      · exact ⟨e, List.mem_cons_self _ _, hE⟩
      · obtain ⟨e2, he2, hemit⟩ := ih hr2
        exact ⟨e2, List.mem_cons_of_mem _ he2, hemit⟩

theorem imfYearLoop_no_abort {ic : String} {ind : IndicatorInfo} {cc : String}
    {ym : List (String × JVal)} {ci : CountryInfo}
    (hci : lookupA COUNTRIES cc = some ci) :
    (imfYearLoop ic ind cc ym).2 = false := by
  induction ym with
  | nil => rfl
  | cons e rest ih =>
    cases hE : imfEntry ic ind cc e with
    | keyError =>
      rw [imfEntry_keyError_inv hE] at hci
      exact Option.noConfusion hci
    | skip => simp only [imfYearLoop, hE]; exact ih
    | emit r2 => simp only [imfYearLoop, hE]; exact ih

theorem imfYearLoop_countP_zero {ic : String} {ind : IndicatorInfo} {cc : String}
    {ym : List (String × JVal)} {y : Int}
    (hno : ∀ e ∈ ym, ∀ r, imfEntry ic ind cc e = .emit r → r.year ≠ y) :
    ((imfYearLoop ic ind cc ym).1.countP fun r => r.year == y) = 0 := by
  induction ym with
  | nil => rfl
  | cons e rest ih =>
    have ihr := ih fun e2 he2 => hno e2 (List.mem_cons_of_mem _ he2)
    cases hE : imfEntry ic ind cc e with
    | keyError => simp [imfYearLoop, hE]
    | skip => simp only [imfYearLoop, hE]; exact ihr
    | emit r2 =>
      have hne : (r2.year == y) = false :=
        beq_eq_false_iff_ne.mpr (hno e (List.mem_cons_self _ _) r2 hE)
      simp only [imfYearLoop, hE, List.countP_cons, hne]
      simpa using ihr

theorem imfYearLoop_countP_one {ic : String} {ind : IndicatorInfo} {cc : String}
    {ym : List (String × JVal)} {y : Int} {e₀ : String × JVal} {r₀ : ObservationRecord}
    (hnd : (ym.map fun en => pyInt? en.1).Nodup)
    (hmem : e₀ ∈ ym) (hy : pyInt? e₀.1 = some y)
    (hemit : imfEntry ic ind cc e₀ = .emit r₀) :
    ((imfYearLoop ic ind cc ym).1.countP fun r => r.year == y) = 1 ∧
      r₀ ∈ (imfYearLoop ic ind cc ym).1 := by
  induction ym with
  | nil => simp at hmem
  | cons e rest ih =>
    rw [List.map_cons, List.nodup_cons] at hnd
    rcases List.mem_cons.mp hmem with rfl | hmem2
    · -- the head is the matching entry
      have hy0 : r₀.year = y := by
        obtain ⟨ci, _, hyy, _⟩ := imfEntry_emit_inv hemit
        rw [hy] at hyy
        exact (Option.some.inj hyy).symm
      have hzero :
          ((imfYearLoop ic ind cc rest).1.countP fun r => r.year == y) = 0 := by
        refine imfYearLoop_countP_zero fun e2 he2 r hE hry => ?_
        obtain ⟨ci, _, hyy, _⟩ := imfEntry_emit_inv hE
        refine hnd.1 ?_
        refine List.mem_map.mpr ⟨e2, he2, ?_⟩
        rw [hyy, hry, hy]
      simp only [imfYearLoop, hemit, List.countP_cons, hzero, beq_iff_eq, hy0]
      simp
    · -- the matching entry is in the tail
      have hney : pyInt? e.1 ≠ some y := by
        intro hcontra
        refine hnd.1 ?_
        rw [hcontra, ← hy]
        exact List.mem_map.mpr ⟨e₀, hmem2, rfl⟩
      obtain ⟨h1, h2⟩ := ih hnd.2 hmem2
      cases hE : imfEntry ic ind cc e with
      | keyError =>
        obtain ⟨ci, hl, _⟩ := imfEntry_emit_inv hemit
        rw [imfEntry_keyError_inv hE] at hl
        exact Option.noConfusion hl
      | skip =>
        simp only [imfYearLoop, hE]
        exact ⟨h1, h2⟩
      | emit r2 =>
        have hne : (r2.year == y) = false := by
          refine beq_eq_false_iff_ne.mpr fun hry => ?_
          obtain ⟨ci, _, hyy, _⟩ := imfEntry_emit_inv hE
          exact hney (by rw [hyy, hry])
        simp only [imfYearLoop, hE, List.countP_cons, hne]
        refine ⟨by simpa using h1, List.mem_cons_of_mem _ h2⟩

theorem lookupA_none_of_any_false {α : Type} {kvs : List (String × α)} {k : String}
    (h : (kvs.any fun e => e.1 == k) = false) : lookupA kvs k = none := by
  have hf : (kvs.find? fun e => e.1 == k) = none := by
    refine List.find?_eq_none.mpr fun e he hk => ?_
    rw [List.any_eq_true.mpr ⟨e, he, hk⟩] at h
    exact Bool.noConfusion h
  unfold lookupA
  rw [hf]
  rfl

theorem lookupA_some_of_any_true {α : Type} {kvs : List (String × α)} {k : String}
    (h : (kvs.any fun e => e.1 == k) = true) : ∃ v, lookupA kvs k = some v := by
  obtain ⟨e, he, hp⟩ := List.any_eq_true.mp h
  have : (kvs.find? fun e => e.1 == k).isSome = true :=
    List.find?_isSome.mpr ⟨e, he, hp⟩
  obtain ⟨e2, he2⟩ := Option.isSome_iff_exists.mp this
  exact ⟨e2.2, by unfold lookupA; rw [he2]; rfl⟩

theorem lookupA_any_true {α : Type} {kvs : List (String × α)} {k : String} {v : α}
    (h : lookupA kvs k = some v) : (kvs.any fun e => e.1 == k) = true := by
  unfold lookupA at h
  cases hf : kvs.find? fun e => e.1 == k with
  | none => rw [hf] at h; exact Option.noConfusion h
  | some e =>
    have hp := List.find?_some hf
    exact List.any_eq_true.mpr ⟨e, List.mem_of_find?_eq_some hf, hp⟩

theorem lookupA_mem {α : Type} {kvs : List (String × α)} {k : String} {v : α}
    (h : lookupA kvs k = some v) : ∃ e ∈ kvs, e.2 = v := by
  unfold lookupA at h
  cases hf : kvs.find? fun e => e.1 == k with
  | none => rw [hf] at h; exact Option.noConfusion h
  | some e =>
    rw [hf] at h
    exact ⟨e, List.mem_of_find?_eq_some hf, Option.some.inj h⟩

theorem lookupA_nonempty {α : Type} {kvs : List (String × α)} {k : String} {v : α}
    (h : lookupA kvs k = some v) : kvs.isEmpty = false := by
  obtain ⟨e, he, _⟩ := lookupA_mem h
  cases kvs with
  | nil => simp at he
  | cons a l => rfl

theorem imfCountryLoop_eq {ic : String} {ind : IndicatorInfo} {cmap : List (String × JVal)}
    (hwf : ∀ e ∈ cmap, ∃ m, e.2 = JVal.obj m) :
    ∀ ccs acc, (∀ c ∈ ccs, (lookupA COUNTRIES c).isSome) →
      imfCountryLoop ic ind (JVal.obj cmap) ccs acc =
        .done (acc ++ ccs.flatMap (countryRecs ic ind cmap)) := by
  intro ccs
  induction ccs with
  | nil =>
    intro acc _
    simp [imfCountryLoop]
  | cons cc rest ih =>
    intro acc hcs
    have hc : (lookupA COUNTRIES cc).isSome := hcs cc (List.mem_cons_self _ _)
    obtain ⟨ci, hci⟩ := Option.isSome_iff_exists.mp hc
    have hrest : ∀ c ∈ rest, (lookupA COUNTRIES c).isSome :=
      fun c hcm => hcs c (List.mem_cons_of_mem _ hcm)
    cases hany : (cmap.any fun e => e.1 == cc) with
    | false =>
      have hnone := lookupA_none_of_any_false hany
      simp only [imfCountryLoop, pyContains, hany]
      rw [ih acc hrest]
      simp [countryRecs, hnone]
    | true =>
      obtain ⟨v, hv⟩ := lookupA_some_of_any_true hany
      obtain ⟨e, hem, he2⟩ := lookupA_mem hv
      obtain ⟨m, hm⟩ := hwf e hem
      rw [hm] at he2
      subst he2
      have hnoab : (imfYearLoop ic ind cc m).2 = false := imfYearLoop_no_abort hci
      simp only [imfCountryLoop, pyContains, hany, pySubscript, hv, hnoab]
      rw [if_neg (by simp), ih (acc ++ (imfYearLoop ic ind cc m).1) hrest]
      have : countryRecs ic ind cmap cc = (imfYearLoop ic ind cc m).1 := by
        simp [countryRecs, hv]
      simp [this, List.append_assoc]

theorem imfCountryLoop_mem {ic : String} {ind : IndicatorInfo} {indData : JVal} :
    ∀ (ccs : List String) (acc out : List ObservationRecord),
      (imfCountryLoop ic ind indData ccs acc = .done out ∨
        imfCountryLoop ic ind indData ccs acc = .caught out) →
      ∀ r ∈ out, r ∈ acc ∨ ∃ cc e, imfEntry ic ind cc e = .emit r := by
  intro ccs
  induction ccs with
  | nil =>
    intro acc out h r hr
    rcases h with h | h
    · injection h with h
      subst h
      exact Or.inl hr
    · simp [imfCountryLoop] at h
  | cons cc rest ih =>
    intro acc out h r hr
    rcases h with h | h
    all_goals simp only [imfCountryLoop] at h
    all_goals split at h
    -- done: pyContains error
    next => exact ImfOutcome.noConfusion h
    -- done: pyContains ok false
    next => exact ih acc out (Or.inl h) r hr
    -- done: pyContains ok true
    next =>
      split at h
      next => exact ImfOutcome.noConfusion h
      next ym hps =>
        split at h
        next hab => exact ImfOutcome.noConfusion h
        next hab =>
          rcases ih _ out (Or.inl h) r hr with hr2 | hr2
          · rcases List.mem_append.mp hr2 with hr3 | hr3
            · exact Or.inl hr3
            · obtain ⟨e, _, hemit⟩ := imfYearLoop_mem hr3
              exact Or.inr ⟨cc, e, hemit⟩
          · exact Or.inr hr2
      next => exact ImfOutcome.noConfusion h
    -- caught: pyContains error
    next =>
      injection h with h
      subst h
      exact Or.inl hr
    -- caught: pyContains ok false
    next => exact ih acc out (Or.inr h) r hr
    -- caught: pyContains ok true
    next =>
      split at h
      next =>
        injection h with h
        subst h
        exact Or.inl hr
      next ym hps =>
        split at h
        next hab =>
          injection h with h
          subst h
          rcases List.mem_append.mp hr with hr3 | hr3
          · exact Or.inl hr3
          · obtain ⟨e, _, hemit⟩ := imfYearLoop_mem hr3
            exact Or.inr ⟨cc, e, hemit⟩
        next hab =>
          rcases ih _ out (Or.inr h) r hr with hr2 | hr2
          · rcases List.mem_append.mp hr2 with hr3 | hr3
            · exact Or.inl hr3
            · obtain ⟨e, _, hemit⟩ := imfYearLoop_mem hr3
              exact Or.inr ⟨cc, e, hemit⟩
          · exact Or.inr hr2
      next => exact ImfOutcome.noConfusion h

theorem get_imf_data_ok_mem {ic : String} {ccs : List String} {resp : Option JVal}
    {pts : List ObservationRecord} (h : get_imf_data ic ccs resp = .ok pts) :
    ∀ r ∈ pts, ∃ ind cc e, imfEntry ic ind cc e = .emit r := by
  intro r hr
  simp only [get_imf_data] at h
  split at h
  next => exact Except.noConfusion h
  next ind hind =>
    split at h
    next =>
      injection h with h
      subst h
      simp at hr
    next jr =>
      split at h
      next =>
        injection h with h
        subst h
        simp at hr
      next =>
        split at h
        next =>
          injection h with h
          subst h
          simp at hr
        next =>
          injection h with h
          subst h
          simp at hr
        next =>
          split at h
          next =>
            injection h with h
            subst h
            simp at hr
          next vals hps =>
            split at h
            next =>
              injection h with h
              subst h
              simp at hr
            next =>
              injection h with h
              subst h
              simp at hr
            next =>
              split at h
              next =>
                injection h with h
                subst h
                simp at hr
              next indData hps2 =>
                split at h
                next out hloop =>
                  injection h with h
                  subst h
                  rcases imfCountryLoop_mem ccs [] out (Or.inl hloop) r hr with h2 | ⟨cc, e, hemit⟩
                  · simp at h2
                  · exact ⟨ind, cc, e, hemit⟩
                next out hloop =>
                  injection h with h
                  subst h
                  rcases imfCountryLoop_mem ccs [] out (Or.inr hloop) r hr with h2 | ⟨cc, e, hemit⟩
                  · simp at h2
                  · exact ⟨ind, cc, e, hemit⟩
                next => exact Except.noConfusion h

theorem imf_records_inv {ic : String} {ccs : List String} {resp : Option JVal}
    {pts : List ObservationRecord} (h : get_imf_data ic ccs resp = .ok pts) :
    ∀ r ∈ pts, (lookupA COUNTRIES r.country_code).isSome ∧
      START_YEAR ≤ r.year ∧ r.year ≤ END_YEAR ∧ r.source = "IMF" ∧ r.indicator_code = ic := by
  intro r hr
  obtain ⟨ind, cc, e, hemit⟩ := get_imf_data_ok_mem h r hr
  obtain ⟨ci, hci, _, hy1, hy2, hcc, _, _, _, hic, hsrc, _⟩ := imfEntry_emit_inv hemit
  subst hcc
  exact ⟨by rw [hci]; rfl, hy1, hy2, hsrc, hic⟩

theorem get_imf_data_eq_of_wf {ic : String} {ind : IndicatorInfo}
    {rkvs vkvs cmap : List (String × JVal)} {ccs : List String}
    (hind : lookupA IMF_INDICATORS ic = some ind)
    (hv : lookupA rkvs "values" = some (JVal.obj vkvs))
    (hi : lookupA vkvs ic = some (JVal.obj cmap))
    (hwf : ∀ e ∈ cmap, ∃ m, e.2 = JVal.obj m)
    (hcs : ∀ c ∈ ccs, (lookupA COUNTRIES c).isSome) :
    get_imf_data ic ccs (some (JVal.obj rkvs)) =
      .ok (ccs.flatMap (countryRecs ic ind cmap)) := by
  have htr : pyTruthy (JVal.obj rkvs) = true := by
    simp only [pyTruthy, lookupA_nonempty hv, Bool.not_false]
  simp only [get_imf_data, hind, htr, pyContains, pySubscript, hv, hi,
    lookupA_any_true hv, lookupA_any_true hi,
    imfCountryLoop_eq hwf ccs [] hcs, List.nil_append]
  simp

theorem countryRecs_code {ic : String} {ind : IndicatorInfo}
    {cmap : List (String × JVal)} {c : String} {r : ObservationRecord}
    (hr : r ∈ countryRecs ic ind cmap c) : r.country_code = c := by
  unfold countryRecs at hr
  split at hr
  next ym hl =>
    obtain ⟨e, _, hemit⟩ := imfYearLoop_mem hr
    obtain ⟨ci, _, _, _, _, hcc, _⟩ := imfEntry_emit_inv hemit
    exact hcc
  next => simp at hr

theorem flatMap_countP_eq {ccs : List String} {cc : String} {y : Int}
    {f : String → List ObservationRecord}
    (hblock : ∀ c ∈ ccs, ∀ r ∈ f c, r.country_code = c)
    (hnd : ccs.Nodup) (hcc : cc ∈ ccs) :
    ((ccs.flatMap f).countP fun r => r.country_code == cc && r.year == y) =
      ((f cc).countP fun r => r.year == y) := by
  induction ccs with
  | nil => simp at hcc
  | cons c rest ih =>
    rw [List.nodup_cons] at hnd
    rw [List.flatMap_cons, List.countP_append]
    rcases List.mem_cons.mp hcc with rfl | hcc2
    · have h1 : ((f cc).countP fun r => r.country_code == cc && r.year == y) =
          ((f cc).countP fun r => r.year == y) := by
        refine List.countP_congr fun r hrf => ?_
        have := hblock cc (List.mem_cons_self _ _) r hrf
        simp [this]
      have h2 : ((rest.flatMap f).countP fun r => r.country_code == cc && r.year == y) = 0 := by
        rw [List.countP_eq_zero]
        intro r hrf
        obtain ⟨c2, hc2, hrc2⟩ := List.mem_flatMap.mp hrf
        have hcode := hblock c2 (List.mem_cons_of_mem _ hc2) r hrc2
        have hne : c2 ≠ cc := fun heq => hnd.1 (heq ▸ hc2)
        simp [hcode, hne]
      rw [h1, h2, Nat.add_zero]
    · have hc_ne : c ≠ cc := fun heq => hnd.1 (heq ▸ hcc2)
      have h1 : ((f c).countP fun r => r.country_code == cc && r.year == y) = 0 := by
        rw [List.countP_eq_zero]
        intro r hrf
        have hcode := hblock c (List.mem_cons_self _ _) r hrf
        simp [hcode, hc_ne]
      rw [h1, Nat.zero_add]
      exact ih (fun c2 hc2 => hblock c2 (List.mem_cons_of_mem _ hc2)) hnd.2 hcc2

/-- C1: for the fund-API adapter applied to
`{"values":{"LUR":{"BRA":{"2019": 11.9, "2025": 8.0}}}}` with country list
`["BRA"]` and bounds 2018–2024, exactly one `ObservationRecord` is produced,
with year 2019 and value 11.9; the entry for 2025 produces no record.  In
general, for every well-formed fund-API response, every valid
(indicator, country, year) triple present with a numeric value and a year
inside `[START_YEAR, END_YEAR]` yields exactly one record with matching
values, and no record is ever produced for a year outside the bounds. -/
theorem imf_adapter_exact_records :
    (get_imf_data "LUR" ["BRA"] (some respC1) =
      .ok [⟨"BRA", "Brazil", "Latin America", 2019, "Unemployment Rate", "LUR",
        some (mkRat 119 10), "IMF"⟩]) ∧
    (∀ (ic : String) (ind : IndicatorInfo) (rkvs vkvs cmap : List (String × JVal))
        (ccs : List String),
      lookupA IMF_INDICATORS ic = some ind →
      lookupA rkvs "values" = some (JVal.obj vkvs) →
      lookupA vkvs ic = some (JVal.obj cmap) →
      (∀ e ∈ cmap, ∃ m, e.2 = JVal.obj m ∧ (m.map fun en => pyInt? en.1).Nodup) →
      ccs.Nodup →
      (∀ c ∈ ccs, (lookupA COUNTRIES c).isSome) →
      ∃ pts, get_imf_data ic ccs (some (JVal.obj rkvs)) = .ok pts ∧
        (∀ r ∈ pts, START_YEAR ≤ r.year ∧ r.year ≤ END_YEAR) ∧
        (∀ (cc : String) (ym : List (String × JVal)) (ci : CountryInfo) (y : Int) (q : Rat),
          cc ∈ ccs →
          lookupA cmap cc = some (JVal.obj ym) →
          lookupA COUNTRIES cc = some ci →
          (∃ e ∈ ym, pyInt? e.1 = some y ∧ e.2 = JVal.num q) →
          START_YEAR ≤ y → y ≤ END_YEAR →
          (pts.countP fun r => r.country_code == cc && r.year == y) = 1 ∧
          (⟨cc, ci.name, ci.region, y, ind.name, ic, some q, "IMF"⟩ : ObservationRecord) ∈ pts)) := by
  constructor
  · decide
  · intro ic ind rkvs vkvs cmap ccs hind hv hi hwf hnd hcs
    have hwf' : ∀ e ∈ cmap, ∃ m, e.2 = JVal.obj m :=
      fun e he => (hwf e he).imp fun m hm => hm.1
    have heq := get_imf_data_eq_of_wf hind hv hi hwf' hcs
    refine ⟨_, heq, ?_, ?_⟩
    · intro r hr
      have := imf_records_inv heq r hr
      exact ⟨this.2.1, this.2.2.1⟩
    · rintro cc ym ci y q hccm hlc hlci ⟨e₀, he₀, hy₀, hv₀⟩ hy1 hy2
      obtain ⟨em, hem, hem2⟩ := lookupA_mem hlc
      obtain ⟨m, hm, hndm⟩ := hwf em hem
      rw [hm] at hem2
      injection hem2 with hem2
      subst hem2
      have hemit := @imfEntry_emit_of_num ic ind cc e₀ y q ci hy₀ hv₀ hy1 hy2 hlci
      have hblock : ∀ c ∈ ccs, ∀ r ∈ countryRecs ic ind cmap c, r.country_code = c :=
        fun c _ r hr => countryRecs_code hr
      have hcr : countryRecs ic ind cmap cc = (imfYearLoop ic ind cc m).1 := by
        unfold countryRecs
        rw [hlc]
      have hcount := imfYearLoop_countP_one hndm he₀ hy₀ hemit
      constructor
      · rw [flatMap_countP_eq hblock hnd hccm, hcr]
        exact hcount.1
      · refine List.mem_flatMap.mpr ⟨cc, hccm, ?_⟩
        rw [hcr]
        exact hcount.2

/-- Closed check instantiating `imf_adapter_exact_records` on the concrete
response of the spec. -/
theorem imf_adapter_exact_records_check :
    ∃ pts, get_imf_data "LUR" ["BRA"] (some respC1) = Except.ok pts ∧
      (pts.countP fun r => r.country_code == "BRA" && r.year == (2019 : Int)) = 1 ∧
      (⟨"BRA", "Brazil", "Latin America", 2019, "Unemployment Rate", "LUR",
        some (mkRat 119 10), "IMF"⟩ : ObservationRecord) ∈ pts := by
  have h := imf_adapter_exact_records.2 "LUR" ⟨"Unemployment Rate", "Unemployment rate, percent"⟩
    [("values", JVal.obj [("LUR", JVal.obj [("BRA",
      JVal.obj [("2019", JVal.num (mkRat 119 10)), ("2025", JVal.num (mkRat 8 1))])])])]
    [("LUR", JVal.obj [("BRA",
      JVal.obj [("2019", JVal.num (mkRat 119 10)), ("2025", JVal.num (mkRat 8 1))])])]
    [("BRA", JVal.obj [("2019", JVal.num (mkRat 119 10)), ("2025", JVal.num (mkRat 8 1))])]
    ["BRA"]
    (by decide) rfl rfl
    (by
      intro e he
      simp only [List.mem_singleton] at he
      subst he
      exact ⟨[("2019", JVal.num (mkRat 119 10)), ("2025", JVal.num (mkRat 8 1))], rfl, by decide⟩)
    (by decide)
    (by decide)
  obtain ⟨pts, heq, _, hcount⟩ := h
  have hc := hcount "BRA"
    [("2019", JVal.num (mkRat 119 10)), ("2025", JVal.num (mkRat 8 1))]
    ⟨"Brazil", "Latin America"⟩ 2019 (mkRat 119 10)
    (by decide) rfl (by decide)
    ⟨("2019", JVal.num (mkRat 119 10)), by simp, by decide, rfl⟩
    (by decide) (by decide)
  exact ⟨pts, heq, hc.1, hc.2⟩

theorem imfYearLoop_countP_zero_slot {ic : String} {ind : IndicatorInfo} {cc : String}
    {ym : List (String × JVal)} {y : Int} {e₀ : String × JVal}
    (hnd : (ym.map fun en => pyInt? en.1).Nodup)
    (hmem : e₀ ∈ ym) (hy : pyInt? e₀.1 = some y)
    (hnoemit : ∀ r, imfEntry ic ind cc e₀ ≠ .emit r) :
    ((imfYearLoop ic ind cc ym).1.countP fun r => r.year == y) = 0 := by
  refine imfYearLoop_countP_zero fun e he r hE hry => ?_
  obtain ⟨ci, _, hyy, _⟩ := imfEntry_emit_inv hE
  have hpe : pyInt? e.1 = some y := by rw [hyy, hry]
  have heq : e = e₀ :=
    List.inj_on_of_nodup_map hnd he hmem (by rw [hpe, hy])
  exact hnoemit r (heq ▸ hE)

/-- C2 counterexample: for the response `{"values":{"LUR":{"BRA":{"2019": ""}}}}`
the raw value `""` fails numeric conversion, yet the adapter emits one record
(with a null value) instead of skipping the entry. -/
theorem imf_empty_string_emits_record :
    get_imf_data "LUR" ["BRA"] (some respEmptyStr) =
      .ok [⟨"BRA", "Brazil", "Latin America", 2019, "Unemployment Rate", "LUR", none, "IMF"⟩] ∧
    pyFloat? "" = none ∧
    ([(⟨"BRA", "Brazil", "Latin America", 2019, "Unemployment Rate", "LUR", none, "IMF"⟩ :
      ObservationRecord)] ≠ []) := by
  exact ⟨by decide, by decide, by decide⟩

/-- C2 (amended): the fund adapter emits no record for an entry whose raw
value fails numeric conversion — except when the raw value is the empty
string, which is special-cased: an in-range year with raw value `""` yields
exactly one record whose value is null. -/
theorem imf_nonnumeric_policy :
    ∀ (ic : String) (ind : IndicatorInfo) (rkvs vkvs cmap : List (String × JVal))
      (ccs : List String) (cc : String) (ym : List (String × JVal)) (ci : CountryInfo)
      (y : Int) (e₀ : String × JVal),
      lookupA IMF_INDICATORS ic = some ind →
      lookupA rkvs "values" = some (JVal.obj vkvs) →
      lookupA vkvs ic = some (JVal.obj cmap) →
      (∀ e ∈ cmap, ∃ m, e.2 = JVal.obj m ∧ (m.map fun en => pyInt? en.1).Nodup) →
      ccs.Nodup → (∀ c ∈ ccs, (lookupA COUNTRIES c).isSome) →
      cc ∈ ccs → lookupA cmap cc = some (JVal.obj ym) → lookupA COUNTRIES cc = some ci →
      e₀ ∈ ym → pyInt? e₀.1 = some y →
      ∃ pts, get_imf_data ic ccs (some (JVal.obj rkvs)) = .ok pts ∧
        (((∀ q, pyFloatJ e₀.2 ≠ .ok q) → e₀.2 ≠ JVal.str "" →
            (pts.countP fun r => r.country_code == cc && r.year == y) = 0) ∧
          (e₀.2 = JVal.str "" → START_YEAR ≤ y → y ≤ END_YEAR →
            (pts.countP fun r => r.country_code == cc && r.year == y) = 1 ∧
            (⟨cc, ci.name, ci.region, y, ind.name, ic, none, "IMF"⟩ : ObservationRecord) ∈ pts)) := by
  intro ic ind rkvs vkvs cmap ccs cc ym ci y e₀ hind hv hi hwf hnd hcs hccm hlc hlci he₀ hy₀
  have hwf' : ∀ e ∈ cmap, ∃ m, e.2 = JVal.obj m :=
    fun e he => (hwf e he).imp fun m hm => hm.1
  have heq := get_imf_data_eq_of_wf hind hv hi hwf' hcs
  obtain ⟨em, hem, hem2⟩ := lookupA_mem hlc
  obtain ⟨m, hm, hndm⟩ := hwf em hem
  rw [hm] at hem2
  injection hem2 with hem2
  subst hem2
  have hblock : ∀ c ∈ ccs, ∀ r ∈ countryRecs ic ind cmap c, r.country_code = c :=
    fun c _ r hr => countryRecs_code hr
  have hcr : countryRecs ic ind cmap cc = (imfYearLoop ic ind cc m).1 := by
    unfold countryRecs
    rw [hlc]
  refine ⟨_, heq, ?_, ?_⟩
  · intro hfail hne
    rw [flatMap_countP_eq hblock hnd hccm, hcr]
    exact imfYearLoop_countP_zero_slot hndm he₀ hy₀
      (imfEntry_no_emit_of_failfloat hfail hne)
  · intro hes hy1 hy2
    have hemit := @imfEntry_emit_of_emptystr ic ind cc e₀ y ci hy₀ hes hy1 hy2 hlci
    have hcount := imfYearLoop_countP_one hndm he₀ hy₀ hemit
    constructor
    · rw [flatMap_countP_eq hblock hnd hccm, hcr]
      exact hcount.1
    · refine List.mem_flatMap.mpr ⟨cc, hccm, ?_⟩
      rw [hcr]
      exact hcount.2

/-- Closed check instantiating `imf_nonnumeric_policy` on a non-numeric raw
value `"x"`: no record is emitted for the entry. -/
theorem imf_nonnumeric_policy_check :
    ∃ pts, get_imf_data "LUR" ["BRA"]
        (some (JVal.obj [("values", JVal.obj [("LUR",
          JVal.obj [("BRA", JVal.obj [("2019", JVal.str "x")])])])])) = Except.ok pts ∧
      (pts.countP fun r => r.country_code == "BRA" && r.year == (2019 : Int)) = 0 := by
  have h := imf_nonnumeric_policy "LUR" ⟨"Unemployment Rate", "Unemployment rate, percent"⟩
    [("values", JVal.obj [("LUR", JVal.obj [("BRA", JVal.obj [("2019", JVal.str "x")])])])]
    [("LUR", JVal.obj [("BRA", JVal.obj [("2019", JVal.str "x")])])]
    [("BRA", JVal.obj [("2019", JVal.str "x")])]
    ["BRA"] "BRA" [("2019", JVal.str "x")] ⟨"Brazil", "Latin America"⟩ 2019
    ("2019", JVal.str "x")
    (by decide) rfl rfl
    (by
      intro e he
      simp only [List.mem_singleton] at he
      subst he
      exact ⟨[("2019", JVal.str "x")], rfl, by decide⟩)
    (by decide) (by decide) (by decide) rfl (by decide) (by simp) (by decide)
  obtain ⟨pts, heq, hzero, _⟩ := h
  refine ⟨pts, heq, hzero ?_ ?_⟩
  · intro q hq
    rw [show pyFloatJ (JVal.str "x") = Except.error () from rfl] at hq
    exact Except.noConfusion hq
  · intro hcontra
    injection hcontra with h2
    exact absurd h2 (by decide)

theorem wbStep_emit_inv {ind : IndicatorInfo} {ic : String} {record : JVal}
    {r : ObservationRecord} (h : wbStep ind ic record = .emit r) :
    (lookupA COUNTRIES r.country_code).isSome ∧ (∃ q, r.value = some q) ∧
      START_YEAR ≤ r.year ∧ r.year ≤ END_YEAR ∧ r.source = "World Bank" ∧
      r.indicator_name = ind.name ∧ r.indicator_code = ic := by
  cases record with
  | obj kvs =>
    simp only [wbStep] at h
    split at h
    next => exact WbRes.noConfusion h
    next => exact WbRes.noConfusion h
    next cc hcc =>
      split at h
      next => exact WbRes.noConfusion h
      next ci hci =>
        split at h
        next hcond =>
          split at h
          next => exact WbRes.noConfusion h
          next y hyv =>
            split at h
            next hb =>
              split at h
              next q hq =>
                injection h with h
                subst h
                exact ⟨by rw [hci]; rfl, ⟨q, rfl⟩, hb.1, hb.2, rfl, rfl, rfl⟩
              next => exact WbRes.noConfusion h
            next => exact WbRes.noConfusion h
        next => exact WbRes.noConfusion h
    next => exact WbRes.noConfusion h
  | null => exact WbRes.noConfusion h
  | bool b => exact WbRes.noConfusion h
  | num q => exact WbRes.noConfusion h
  | str s => exact WbRes.noConfusion h
  | arr xs => exact WbRes.noConfusion h

theorem wbLoop_ok_mem {ind : IndicatorInfo} {ic : String} :
    ∀ (recs : List JVal) (acc pts : List ObservationRecord),
      wbLoop ind ic recs acc = .ok pts →
      ∀ r ∈ pts, r ∈ acc ∨ ∃ rec, wbStep ind ic rec = .emit r := by
  intro recs
  induction recs with
  | nil =>
    intro acc pts h r hr
    injection h with h
    subst h
    exact Or.inl hr
  | cons rec rest ih =>
    intro acc pts h r hr
    cases hs : wbStep ind ic rec with
    | skip =>
      simp only [wbLoop, hs] at h
      exact ih acc pts h r hr
    | emit r2 =>
      simp only [wbLoop, hs] at h
      rcases ih _ pts h r hr with h2 | h2
      · rcases List.mem_append.mp h2 with h3 | h3
        · exact Or.inl h3
        · simp only [List.mem_singleton] at h3
          subst h3
          exact Or.inr ⟨rec, hs⟩
      · exact Or.inr h2
    | crash =>
      simp only [wbLoop, hs] at h
      exact Except.noConfusion h

theorem get_world_bank_data_ok_mem {ic : String} {ccs : List String} {resp : Option JVal}
    {pts : List ObservationRecord} (h : get_world_bank_data ic ccs resp = .ok pts) :
    ∀ r ∈ pts, ∃ ind, lookupA WB_INDICATORS ic = some ind ∧
      ∃ rec, wbStep ind ic rec = .emit r := by
  intro r hr
  simp only [get_world_bank_data] at h
  split at h
  next => exact Except.noConfusion h
  next ind hind =>
    split at h
    next =>
      injection h with h
      subst h
      simp at hr
    next jr =>
      split at h
      next =>
        injection h with h
        subst h
        simp at hr
      next =>
        split at h
        next meta d rest =>
          simp only [wbIter] at h
          split at h
          next records =>
            rcases wbLoop_ok_mem records [] pts h r hr with h2 | h2
            · simp at h2
            · exact ⟨ind, hind, h2⟩
          next =>
            injection h with h
            subst h
            simp at hr
          next =>
            injection h with h
            subst h
            simp at hr
          next => exact Except.noConfusion h
        next =>
          injection h with h
          subst h
          simp at hr

theorem wb_records_inv {ic : String} {ccs : List String} {resp : Option JVal}
    {pts : List ObservationRecord} (h : get_world_bank_data ic ccs resp = .ok pts) :
    ∀ r ∈ pts, (lookupA COUNTRIES r.country_code).isSome ∧ (∃ q, r.value = some q) ∧
      START_YEAR ≤ r.year ∧ r.year ≤ END_YEAR ∧ r.source = "World Bank" := by
  intro r hr
  obtain ⟨ind, _, rec, hemit⟩ := get_world_bank_data_ok_mem h r hr
  obtain ⟨h1, h2, h3, h4, h5, _⟩ := wbStep_emit_inv hemit
  exact ⟨h1, h2, h3, h4, h5⟩

/-- C3: every record emitted by either adapter (for any response and any
input country list) has a `country_code` that is a key of the fixed
`COUNTRIES` set; neither adapter ever returns a record for an unrecognized
code. -/
theorem adapters_emit_recognized_countries :
    (∀ (ic : String) (ccs : List String) (resp : Option JVal) (pts : List ObservationRecord),
      get_imf_data ic ccs resp = .ok pts →
      ∀ r ∈ pts, (lookupA COUNTRIES r.country_code).isSome) ∧
    (∀ (ic : String) (ccs : List String) (resp : Option JVal) (pts : List ObservationRecord),
      get_world_bank_data ic ccs resp = .ok pts →
      ∀ r ∈ pts, (lookupA COUNTRIES r.country_code).isSome) :=
  ⟨fun _ _ _ _ h r hr => (imf_records_inv h r hr).1,
   fun _ _ _ _ h r hr => (wb_records_inv h r hr).1⟩

/-- Closed check instantiating `adapters_emit_recognized_countries` on the
two concrete responses. -/
theorem adapters_emit_recognized_countries_check :
    (∀ r ∈ [(⟨"BRA", "Brazil", "Latin America", 2019, "Unemployment Rate", "LUR",
        some (mkRat 119 10), "IMF"⟩ : ObservationRecord)],
      (lookupA COUNTRIES r.country_code).isSome) ∧
    (∀ r ∈ [(⟨"BRA", "Brazil", "Latin America", 2020, "Population", "SP.POP.TOTL",
        some (mkRat 26 5), "World Bank"⟩ : ObservationRecord)],
      (lookupA COUNTRIES r.country_code).isSome) :=
  ⟨adapters_emit_recognized_countries.1 "LUR" ["BRA"] (some respC1) _ (by decide),
   adapters_emit_recognized_countries.2 "SP.POP.TOTL" ["BRA"] (some respC4) _ (by decide)⟩

/-- C4: for the development-bank response
`[meta, [{"countryiso3code":"BRA","date":"2020","value":"5.2"}]]` the adapter
emits exactly one record: country Brazil, region Latin America, year 2020,
numeric value 5.2, source World Bank. -/
theorem wb_adapter_concrete_record :
    get_world_bank_data "SP.POP.TOTL" ["BRA"] (some respC4) =
      .ok [⟨"BRA", "Brazil", "Latin America", 2020, "Population", "SP.POP.TOTL",
        some (mkRat 26 5), "World Bank"⟩] := by
  decide

theorem make_requestFrom_all_fail (att : Nat → AttemptResult) :
    ∀ (n i : Nat), (∀ j, j < n → att (i + j) = .failure) → make_requestFrom att i n = none := by
  intro n
  induction n with
  | zero => intro i _; rfl
  | succ m ih =>
    intro i h
    have h0 : att i = .failure := by simpa using h 0 (Nat.succ_pos m)
    simp only [make_requestFrom, h0]
    cases m with
    | zero => rfl
    | succ k =>
      rw [if_neg (by simp)]
      refine ih (i + 1) fun j hj => ?_
      have := h (j + 1) (by omega)
      rwa [show i + (j + 1) = i + 1 + j by omega] at this

/-- C8: when every one of the 3 request attempts fails with a
transport/status error, `make_request` returns `None` rather than raising,
and the calling fund adapter consequently returns zero records, so the rest
of the pipeline continues. -/
theorem make_request_exhausted_degrades :
    ∀ (att : Nat → AttemptResult) (ic : String) (ind : IndicatorInfo) (ccs : List String),
      (∀ i, i < 3 → att i = .failure) →
      lookupA IMF_INDICATORS ic = some ind →
      make_request att 3 = none ∧
      get_imf_data ic ccs (make_request att 3) = .ok [] := by
  intro att ic ind ccs hf hind
  have hmr : make_request att 3 = none := by
    unfold make_request
    exact make_requestFrom_all_fail att 3 0 fun j hj => by simpa using hf j hj
  refine ⟨hmr, ?_⟩
  rw [hmr]
  simp [get_imf_data, hind]

/-- Closed check instantiating `make_request_exhausted_degrades` on an
always-failing attempt oracle. -/
theorem make_request_exhausted_degrades_check :
    make_request (fun _ => AttemptResult.failure) 3 = none ∧
      get_imf_data "LUR" ["BRA"] (make_request (fun _ => AttemptResult.failure) 3) = .ok [] :=
  make_request_exhausted_degrades (fun _ => AttemptResult.failure) "LUR"
    ⟨"Unemployment Rate", "Unemployment rate, percent"⟩ ["BRA"]
    (fun _ _ => rfl) (by decide)

/-- C9: for every development-bank call whose response is absent, not
list-shaped, or a list with fewer than two elements, the adapter returns
zero records and does not raise. -/
theorem wb_malformed_zero_records :
    ∀ (ic : String) (ind : IndicatorInfo) (ccs : List String) (resp : Option JVal),
      lookupA WB_INDICATORS ic = some ind →
      (resp = none ∨ (∃ v, resp = some v ∧ ∀ xs, v ≠ JVal.arr xs) ∨
        (∃ xs, resp = some (JVal.arr xs) ∧ xs.length < 2)) →
      get_world_bank_data ic ccs resp = .ok [] := by
  intro ic ind ccs resp hind hmal
  rcases hmal with rfl | ⟨v, rfl, hv⟩ | ⟨xs, rfl, hlen⟩
  · simp [get_world_bank_data, hind]
  · simp only [get_world_bank_data, hind]
    split
    next => rfl
    next =>
      split
      next meta d rest => exact absurd rfl (hv _)
      next => rfl
  · simp only [get_world_bank_data, hind]
    split
    next => rfl
    next htr =>
      cases xs with
      | nil => exact absurd rfl htr
      | cons a tail =>
        cases tail with
        | nil => rfl
        | cons b tail2 =>
          rw [List.length_cons, List.length_cons] at hlen
          exact absurd hlen (by omega)

/-- Closed check instantiating `wb_malformed_zero_records` on a non-list
response. -/
theorem wb_malformed_zero_records_check :
    get_world_bank_data "SP.POP.TOTL" ["BRA"] (some (JVal.num 5)) = .ok [] :=
  wb_malformed_zero_records "SP.POP.TOTL" ⟨"Population", "Population, total"⟩ ["BRA"]
    (some (JVal.num 5)) (by decide)
    (Or.inr (Or.inl ⟨JVal.num 5, rfl, fun xs h => JVal.noConfusion h⟩))

/-- C10: every record the development-bank adapter emits has a non-null
numeric value (null raw values are skipped at parse time), unlike the fund
adapter, where an empty-string raw value yields a record with a null
value. -/
theorem wb_values_never_null :
    (∀ (ic : String) (ccs : List String) (resp : Option JVal) (pts : List ObservationRecord),
      get_world_bank_data ic ccs resp = .ok pts → ∀ r ∈ pts, ∃ q, r.value = some q) ∧
    (∃ resp pts, get_imf_data "LUR" ["BRA"] resp = .ok pts ∧ ∃ r ∈ pts, r.value = none) := by
  constructor
  · intro ic ccs resp pts h r hr
    exact (wb_records_inv h r hr).2.1
  · exact ⟨some respEmptyStr,
      [⟨"BRA", "Brazil", "Latin America", 2019, "Unemployment Rate", "LUR", none, "IMF"⟩],
      by decide, ⟨_, List.mem_singleton.mpr rfl, rfl⟩⟩

/-- Closed check instantiating `wb_values_never_null` on the concrete
development-bank response. -/
theorem wb_values_never_null_check :
    ∀ r ∈ [(⟨"BRA", "Brazil", "Latin America", 2020, "Population", "SP.POP.TOTL",
      some (mkRat 26 5), "World Bank"⟩ : ObservationRecord)], ∃ q, r.value = some q :=
  wb_values_never_null.1 "SP.POP.TOTL" ["BRA"] (some respC4) _ (by decide)

theorem isNull_false_iff {v : JVal} : v.isNull = false ↔ v ≠ JVal.null := by
  cases v <;> simp [JVal.isNull]

theorem keepRow_iff {r : RawRow} : keepRow r = true ↔
    r.Country ≠ JVal.null ∧ r.Year ≠ JVal.null ∧ r.Indicator_Name ≠ JVal.null := by
  simp [keepRow, Bool.and_eq_true, Bool.not_eq_true', isNull_false_iff, and_assoc]

theorem sortKeyOk_inv {r : RawRow} (h : sortKeyOk r = true) :
    (∃ s, r.Country = JVal.str s) ∧ ∃ s, r.Indicator_Name = JVal.str s := by
  unfold sortKeyOk at h
  rw [Bool.and_eq_true] at h
  obtain ⟨h1, h2⟩ := h
  constructor
  · split at h1
    next s heq => exact ⟨s, heq⟩
    next => exact Bool.noConfusion h1
  · split at h2
    next s heq => exact ⟨s, heq⟩
    next => exact Bool.noConfusion h2

theorem coerceRow_fixed {r : RawRow}
    (hy : r.Year = JVal.null ∨ ∃ q, r.Year = JVal.num q)
    (hv : r.Value = JVal.null ∨ ∃ q, r.Value = JVal.num q) :
    coerceRow r = r := by
  obtain ⟨c1, c2, c3, c4, c5, c6, c7, c8⟩ := r
  rcases hy with hy | ⟨qy, hy⟩ <;> rcases hv with hv | ⟨qv, hv⟩ <;>
    (simp only at hy hv; subst hy; subst hv; rfl)

theorem clean_data_ok_inv {df out : List RawRow} (h : clean_data df = .ok out) :
    (df.filter keepRow).all yearCastOk = true ∧
    ((df.filter keepRow).map coerceRow).all sortKeyOk = true ∧
    out = List.insertionSort rowLe ((df.filter keepRow).map coerceRow) := by
  simp only [clean_data] at h
  split at h
  next hcast =>
    split at h
    next hsort =>
      injection h with h
      exact ⟨hcast, hsort, h.symm⟩
    next => exact Except.noConfusion h
  next => exact Except.noConfusion h

/-- C5 counterexample: a row whose `Year` cell is the non-numeric string
`"bad-year"` survives the first cleaning pass (with its year nulled by the
coercion), but the second pass drops it: re-cleaning cleaned data does not
yield the same set of records. -/
theorem clean_data_not_idempotent :
    clean_data [rowBadYear] = .ok [rowBadYearCleaned] ∧
    clean_data [rowBadYearCleaned] = .ok [] ∧
    ([rowBadYearCleaned] : List RawRow) ≠ [] := by
  refine ⟨by rfl, by rfl, ?_⟩
  intro hcontra
  exact List.noConfusion hcontra

/-- C5 (amended): the cleaner is idempotent on its own output as long as the
year coercion introduced no missing year: if `clean_data df` succeeds and no
output row has a null `Year` cell, re-running `clean_data` on the output
returns it unchanged.  (A row whose raw year is a non-numeric string breaks
this: its year is nulled by the first pass and the row is dropped by the
second.) -/
theorem clean_data_idempotent_amended :
    ∀ (df out : List RawRow), clean_data df = .ok out →
      (∀ r ∈ out, r.Year ≠ JVal.null) →
      clean_data out = .ok out := by
  intro df out h hy
  obtain ⟨hcast, hsort, hout⟩ := clean_data_ok_inv h
  have hperm := List.perm_insertionSort rowLe ((df.filter keepRow).map coerceRow)
  have hmemc : ∀ r2 ∈ out, r2 ∈ (df.filter keepRow).map coerceRow := by
    intro r2 hr2
    rw [hout] at hr2
    exact hperm.mem_iff.mp hr2
  have hrow : ∀ r2 ∈ out, ∃ r, r ∈ df.filter keepRow ∧ r2 = coerceRow r := by
    intro r2 hr2
    obtain ⟨r, hrf, hre⟩ := List.mem_map.mp (hmemc r2 hr2)
    exact ⟨r, hrf, hre.symm⟩
  have hsort2 : ∀ r2 ∈ out, sortKeyOk r2 = true := by
    intro r2 hr2
    exact List.all_eq_true.mp hsort r2 (hmemc r2 hr2)
  have hyearnum : ∀ r2 ∈ out, ∃ q : Rat, r2.Year = JVal.num q ∧ q.den = 1 := by
    intro r2 hr2
    obtain ⟨r, hrf, hre⟩ := hrow r2 hr2
    have hcast_r : yearCastOk r = true := List.all_eq_true.mp hcast r hrf
    cases htn : toNumericCell r.Year with
    | none =>
      exfalso
      apply hy r2 hr2
      rw [hre]
      simp [coerceRow, htn, cellOfNum]
    | some q =>
      refine ⟨q, by rw [hre]; simp [coerceRow, htn, cellOfNum], ?_⟩
      simp only [yearCastOk, htn, beq_iff_eq] at hcast_r
      exact hcast_r
  have hvalnum : ∀ r2 ∈ out, r2.Value = JVal.null ∨ ∃ q, r2.Value = JVal.num q := by
    intro r2 hr2
    obtain ⟨r, _, hre⟩ := hrow r2 hr2
    cases htn : toNumericCell r.Value with
    | none =>
      left
      rw [hre]
      simp [coerceRow, htn, cellOfNum]
    | some q =>
      right
      exact ⟨q, by rw [hre]; simp [coerceRow, htn, cellOfNum]⟩
  have hkeep : out.filter keepRow = out := by
    rw [List.filter_eq_self]
    intro r2 hr2
    obtain ⟨q, hq, _⟩ := hyearnum r2 hr2
    obtain ⟨⟨s1, hs1⟩, ⟨s2, hs2⟩⟩ := sortKeyOk_inv (hsort2 r2 hr2)
    refine keepRow_iff.mpr ⟨?_, ?_, ?_⟩
    · rw [hs1]; exact fun hh => JVal.noConfusion hh
    · rw [hq]; exact fun hh => JVal.noConfusion hh
    · rw [hs2]; exact fun hh => JVal.noConfusion hh
  have hcast2 : out.all yearCastOk = true := by
    rw [List.all_eq_true]
    intro r2 hr2
    obtain ⟨q, hq, hden⟩ := hyearnum r2 hr2
    simp [yearCastOk, toNumericCell, hq, hden]
  have hmap : out.map coerceRow = out := by
    have hid : ∀ r2 ∈ out, coerceRow r2 = id r2 := fun r2 hr2 =>
      coerceRow_fixed (Or.inr ((hyearnum r2 hr2).imp fun q hq => hq.1)) (hvalnum r2 hr2)
    rw [List.map_congr_left hid, List.map_id]
  have hsortall : out.all sortKeyOk = true := List.all_eq_true.mpr hsort2
  have hsorted : List.Sorted rowLe out := by
    rw [hout]
    exact List.sorted_insertionSort rowLe _
  simp only [clean_data, hkeep, hcast2, hmap, hsortall, if_true]
  rw [hsorted.insertionSort_eq]

/-- Closed check instantiating `clean_data_idempotent_amended` on a concrete
cleaned dataframe. -/
theorem clean_data_idempotent_amended_check :
    clean_data [sampleRowBraCleaned, sampleRowMex] = .ok [sampleRowBraCleaned, sampleRowMex] := by
  refine clean_data_idempotent_amended [sampleRowMex, sampleRowBra]
    [sampleRowBraCleaned, sampleRowMex] (by rfl) ?_
  intro r hr
  rcases List.mem_cons.mp hr with rfl | hr2
  · exact fun hh => JVal.noConfusion hh
  · rcases List.mem_singleton.mp hr2 with rfl
    exact fun hh => JVal.noConfusion hh

/-- C6: for every input dataframe, the record sequence `clean_data` outputs
is non-decreasing in the tuple (Country, Year, Indicator_Name): each
consecutive pair of output rows is related by the lexicographic `rowLe`. -/
theorem clean_data_sorted :
    ∀ (df out : List RawRow), clean_data df = .ok out → List.Chain' rowLe out := by
  intro df out h
  obtain ⟨_, _, hout⟩ := clean_data_ok_inv h
  subst hout
  exact (List.sorted_insertionSort rowLe _).chain'

/-- Closed check instantiating `clean_data_sorted` on a concrete dataframe
that needs reordering. -/
theorem clean_data_sorted_check :
    List.Chain' rowLe [sampleRowBraCleaned, sampleRowMex] :=
  clean_data_sorted [sampleRowMex, sampleRowBra] [sampleRowBraCleaned, sampleRowMex] (by rfl)

/-- C7: `clean_data` keeps every record with non-missing country, year and
indicator name whose value fails numeric conversion, nulling the value rather
than dropping the row; and every output row comes from an input row with
non-missing country, year and indicator name (rows missing one of them are
dropped). -/
theorem clean_data_two_tier :
    ∀ (df out : List RawRow), clean_data df = .ok out →
      (∀ r ∈ df, r.Country ≠ JVal.null → r.Year ≠ JVal.null → r.Indicator_Name ≠ JVal.null →
        toNumericCell r.Value = none → coerceRow r ∈ out ∧ (coerceRow r).Value = JVal.null) ∧
      (∀ r2 ∈ out, ∃ r ∈ df, r.Country ≠ JVal.null ∧ r.Year ≠ JVal.null ∧
        r.Indicator_Name ≠ JVal.null ∧ r2 = coerceRow r) := by
  intro df out h
  obtain ⟨hcast, hsort, hout⟩ := clean_data_ok_inv h
  subst hout
  have hperm := List.perm_insertionSort rowLe ((df.filter keepRow).map coerceRow)
  constructor
  · intro r hr hc hyn hi hv
    have hk : keepRow r = true := keepRow_iff.mpr ⟨hc, hyn, hi⟩
    have hmem : coerceRow r ∈ (df.filter keepRow).map coerceRow :=
      List.mem_map.mpr ⟨r, List.mem_filter.mpr ⟨hr, hk⟩, rfl⟩
    refine ⟨hperm.mem_iff.mpr hmem, ?_⟩
    simp [coerceRow, hv, cellOfNum]
  · intro r2 hr2
    obtain ⟨r, hrf, hre⟩ := List.mem_map.mp (hperm.mem_iff.mp hr2)
    obtain ⟨hrdf, hk⟩ := List.mem_filter.mp hrf
    obtain ⟨h1, h2, h3⟩ := keepRow_iff.mp hk
    exact ⟨r, hrdf, h1, h2, h3, hre.symm⟩

/-- Closed check instantiating `clean_data_two_tier` on a row whose value
cell is a non-numeric string. -/
theorem clean_data_two_tier_check :
    coerceRow sampleRowBra ∈ [sampleRowBraCleaned, sampleRowMex] ∧
      (coerceRow sampleRowBra).Value = JVal.null := by
  refine (clean_data_two_tier [sampleRowMex, sampleRowBra]
    [sampleRowBraCleaned, sampleRowMex] (by rfl)).1 sampleRowBra
    (List.mem_cons_of_mem _ (List.mem_singleton.mpr rfl))
    (fun hh => JVal.noConfusion hh) (fun hh => JVal.noConfusion hh)
    (fun hh => JVal.noConfusion hh) (by rfl)
